import Mathlib

/-!
Verification of the multi-value flag parsers of `internal/command/flag.go`
(fyne-cross): the three custom `flag.Value` list types `envFlag`,
`targetArchFlag` and `tagsFlag` and their `Set` methods.

Go strings are modelled as lists of characters; the in-place mutation of the
flag destination (`*ef = ...`) is modelled by explicit state passing: each
`Set` takes the previous destination and returns the new destination together
with the optional error message.
-/

namespace FyneCross

/-- A Go string, modelled as its list of characters. -/
abbrev GoStr := List Char

/-- Shorthand turning a Lean string literal into a `GoStr`. -/
def gs (s : String) : GoStr := s.toList

/-- `strings.Split(s, sep)` for a one-character separator: the list of
substrings of `s` between consecutive occurrences of `sep`.  On the empty
string it returns one empty piece, like Go's `strings.Split("", sep)`. -/
def stringsSplit (sep : Char) : GoStr → List GoStr
  | [] => [[]]
  | c :: rest =>
    if c = sep then [] :: stringsSplit sep rest
    else
      match stringsSplit sep rest with
      | [] => [[c]]
      | p :: ps => (c :: p) :: ps

/-- Go's `unicode.IsSpace`: the characters `strings.TrimSpace` removes. -/
def unicodeIsSpace (c : Char) : Bool :=
  c = ' ' || c = '\t' || c = '\n' || c = Char.ofNat 0x0B || c = Char.ofNat 0x0C ||
  c = '\r' || c = Char.ofNat 0x85 || c = Char.ofNat 0xA0 || c = Char.ofNat 0x1680 ||
  (0x2000 ≤ c.toNat && c.toNat ≤ 0x200A) || c = Char.ofNat 0x2028 ||
  c = Char.ofNat 0x2029 || c = Char.ofNat 0x202F || c = Char.ofNat 0x205F ||
  c = Char.ofNat 0x3000

/-- `strings.TrimSpace`: drop leading and trailing white space. -/
def trimSpace (s : GoStr) : GoStr :=
  ((s.dropWhile unicodeIsSpace).reverse.dropWhile unicodeIsSpace).reverse

/-- The message of `errors.New("flag already set")`, shared by the three
`Set` methods. -/
def flagAlreadySetError : String := "flag already set"

/-- The message of the env-validation error in `envFlag.Set`; note the source
spells it without "be". -/
def envVarFormatError : String := "env var must defined as KEY=VALUE or KEY="

/-- The validation loop at the end of `envFlag.Set`: walk the populated list,
split each element on `=`, and return the format error at the first element
whose split does not have exactly two parts. -/
def validateEnvVars : List GoStr → Option String
  | [] => none
  | v :: rest =>
    if (stringsSplit '=' v).length ≠ 2 then some envVarFormatError
    else validateEnvVars rest

/-- `envFlag.Set`: reset the destination to the empty list, check the
(now reset) length, append every comma-split piece of `value` verbatim, then
validate each element against the `KEY=VALUE` / `KEY=` shape. -/
def envFlagSet (ef : List GoStr) (value : GoStr) : List GoStr × Option String :=
  let ef : List GoStr := []
  if ef.length > 1 then (ef, some flagAlreadySetError)
  else
    let ef := (stringsSplit ',' value).foldl (fun acc v => acc ++ [v]) ef
    match validateEnvVars ef with
    | some e => (ef, some e)
    | none => (ef, none)

/-- `targetArchFlag.Set`: reset the destination to the empty list, check the
(now reset) length, then append every comma-split piece of `value` with the
surrounding white space trimmed. -/
def targetArchFlagSet (af : List GoStr) (value : GoStr) : List GoStr × Option String :=
  let af : List GoStr := []
  if af.length > 1 then (af, some flagAlreadySetError)
  else ((stringsSplit ',' value).foldl (fun acc v => acc ++ [trimSpace v]) af, none)

/-- `tagsFlag.Set`: identical to `targetArchFlag.Set` (reset, dead length
check, append trimmed comma-split pieces). -/
def tagsFlagSet (tf : List GoStr) (value : GoStr) : List GoStr × Option String :=
  let tf : List GoStr := []
  if tf.length > 1 then (tf, some flagAlreadySetError)
  else ((stringsSplit ',' value).foldl (fun acc v => acc ++ [trimSpace v]) tf, none)

/-! ### Basic lemmas about the embedded operations -/

theorem stringsSplit_ne_nil (sep : Char) (s : GoStr) : stringsSplit sep s ≠ [] := by
  cases s with
  | nil => simp [stringsSplit]
  | cons c rest =>
    by_cases h : c = sep
    · simp [stringsSplit, h]
    · cases hr : stringsSplit sep rest with
      | nil => simp [stringsSplit, h, hr]
      | cons p ps => simp [stringsSplit, h, hr]

theorem length_stringsSplit (sep : Char) (s : GoStr) :
    (stringsSplit sep s).length = s.count sep + 1 := by
  induction s with
  | nil => simp [stringsSplit]
  | cons c rest ih =>
    by_cases h : c = sep
    · simp [stringsSplit, h, List.count_cons, ih]
    · cases hr : stringsSplit sep rest with
      | nil => exact absurd hr (stringsSplit_ne_nil sep rest)
      | cons p ps =>
        rw [hr] at ih
        simp only [stringsSplit, if_neg h, hr, List.length_cons] at ih ⊢
        simp [List.count_cons, ih, Ne.symm h]

theorem stringsSplit_append_sep (sep : Char) (s : GoStr) :
    stringsSplit sep (s ++ [sep]) = stringsSplit sep s ++ [[]] := by
  induction s with
  | nil => simp [stringsSplit]
  | cons c rest ih =>
    by_cases h : c = sep
    · simp [stringsSplit, h, ih]
    · cases hr : stringsSplit sep rest with
      | nil => exact absurd hr (stringsSplit_ne_nil sep rest)
      | cons p ps =>
        rw [hr] at ih
        simp [stringsSplit, h, ih, hr]

theorem foldl_append_singleton {α β : Type} (f : α → β) :
    ∀ (l : List α) (init : List β),
      l.foldl (fun acc v => acc ++ [f v]) init = init ++ l.map f := by
  intro l
  induction l with
  | nil => intro init; simp
  | cons x xs ih => intro init; simp [ih]

theorem envFlagSet_fst (prev : List GoStr) (value : GoStr) :
    (envFlagSet prev value).1 = stringsSplit ',' value := by
  simp only [envFlagSet, foldl_append_singleton, List.map_id, List.nil_append]
  cases h : validateEnvVars (stringsSplit ',' value) <;> simp [h]

theorem envFlagSet_snd (prev : List GoStr) (value : GoStr) :
    (envFlagSet prev value).2 = validateEnvVars (stringsSplit ',' value) := by
  simp only [envFlagSet, foldl_append_singleton, List.map_id, List.nil_append]
  cases h : validateEnvVars (stringsSplit ',' value) <;> simp [h]

theorem targetArchFlagSet_eq (prev : List GoStr) (value : GoStr) :
    targetArchFlagSet prev value = ((stringsSplit ',' value).map trimSpace, none) := by
  simp [targetArchFlagSet, foldl_append_singleton]

theorem tagsFlagSet_eq (prev : List GoStr) (value : GoStr) :
    tagsFlagSet prev value = ((stringsSplit ',' value).map trimSpace, none) := by
  simp [tagsFlagSet, foldl_append_singleton]

theorem validateEnvVars_eq_none_iff (l : List GoStr) :
    validateEnvVars l = none ↔ ∀ v ∈ l, (stringsSplit '=' v).length = 2 := by
  induction l with
  | nil => simp [validateEnvVars]
  | cons v rest ih =>
    by_cases h : (stringsSplit '=' v).length = 2
    · simp [validateEnvVars, h, ih]
    · constructor
      · intro hc
        exfalso
        simp [validateEnvVars, h] at hc
      · intro hall
        exact absurd (hall v (List.mem_cons_self v rest)) h

theorem envFlagSet_prev (prev : List GoStr) (value : GoStr) :
    envFlagSet prev value = envFlagSet [] value := rfl

theorem targetArchFlagSet_prev (prev : List GoStr) (value : GoStr) :
    targetArchFlagSet prev value = targetArchFlagSet [] value := rfl

theorem tagsFlagSet_prev (prev : List GoStr) (value : GoStr) :
    tagsFlagSet prev value = tagsFlagSet [] value := rfl

theorem validateEnvVars_result (l : List GoStr) :
    validateEnvVars l = none ∨ validateEnvVars l = some envVarFormatError := by
  induction l with
  | nil => left; rfl
  | cons v rest ih =>
    by_cases h : (stringsSplit '=' v).length ≠ 2
    · right; simp [validateEnvVars, h]
    · simpa [validateEnvVars, h] using ih

theorem envVarFormatError_ne_alreadySet : envVarFormatError ≠ flagAlreadySetError := by
  decide

theorem envFlagSet_ne_alreadySet (prev : List GoStr) (value : GoStr) :
    (envFlagSet prev value).2 ≠ some flagAlreadySetError := by
  rw [envFlagSet_snd]
  rcases validateEnvVars_result (stringsSplit ',' value) with hr | hr <;> rw [hr]
  · simp
  · simp [envVarFormatError_ne_alreadySet]

theorem targetArchFlagSet_ne_alreadySet (prev : List GoStr) (value : GoStr) :
    (targetArchFlagSet prev value).2 ≠ some flagAlreadySetError := by
  simp [targetArchFlagSet_eq]

theorem tagsFlagSet_ne_alreadySet (prev : List GoStr) (value : GoStr) :
    (tagsFlagSet prev value).2 ≠ some flagAlreadySetError := by
  simp [tagsFlagSet_eq]

theorem length_stringsSplit_eq_two_iff (v : GoStr) :
    (stringsSplit '=' v).length = 2 ↔ v.count '=' = 1 := by
  have h := length_stringsSplit '=' v
  omega

/-! ### Claim theorems -/

/-- C1 counterexample: a `Set` call that stored a two-element list on a tags
flag, followed by a further `Set` call, does NOT trigger the
"flag already set" error — the second call succeeds and replaces the list. -/
theorem c1_counterexample :
    (tagsFlagSet [] (gs "a,b")).1 = [gs "a", gs "b"] ∧
    (tagsFlagSet (tagsFlagSet [] (gs "a,b")).1 (gs "c")).2 ≠ some flagAlreadySetError ∧
    (tagsFlagSet (tagsFlagSet [] (gs "a,b")).1 (gs "c")).2 = none := by
  refine ⟨by decide, ?_, by decide⟩
  intro h
  simp [tagsFlagSet] at h

/-- C1 (amended): no variant of `Set` can ever return the "flag already set"
error, whatever the destination previously held — the destination is reset to
an empty list before the length check, so the error branch is dead code. -/
theorem c1_already_set_error_never_returned (prev : List GoStr) (value : GoStr) :
    (envFlagSet prev value).2 ≠ some flagAlreadySetError ∧
    (targetArchFlagSet prev value).2 ≠ some flagAlreadySetError ∧
    (tagsFlagSet prev value).2 ≠ some flagAlreadySetError :=
  ⟨envFlagSet_ne_alreadySet prev value, targetArchFlagSet_ne_alreadySet prev value,
    tagsFlagSet_ne_alreadySet prev value⟩

/-- C2: for every variant, the outcome of `Set` depends only on the raw
argument — any two prior destination contents give the identical final list
and identical error — and the "flag already set" branch is unreachable. -/
theorem c2_set_ignores_prior_state (p1 p2 : List GoStr) (value : GoStr) :
    envFlagSet p1 value = envFlagSet p2 value ∧
    targetArchFlagSet p1 value = targetArchFlagSet p2 value ∧
    tagsFlagSet p1 value = tagsFlagSet p2 value ∧
    (envFlagSet p1 value).2 ≠ some flagAlreadySetError ∧
    (targetArchFlagSet p1 value).2 ≠ some flagAlreadySetError ∧
    (tagsFlagSet p1 value).2 ≠ some flagAlreadySetError :=
  ⟨rfl, rfl, rfl, envFlagSet_ne_alreadySet p1 value,
    targetArchFlagSet_ne_alreadySet p1 value, tagsFlagSet_ne_alreadySet p1 value⟩

/-- C3 counterexample: `Set("b,a=1")` on an env flag fails, yet the
destination holds both comma-split pieces `["b","a=1"]`, not just the pieces
up to and including the first invalid one (which would be `["b"]`). -/
theorem c3_counterexample :
    ((envFlagSet [] (gs "b,a=1")).2).isSome = true ∧
    (envFlagSet [] (gs "b,a=1")).1 = [gs "b", gs "a=1"] ∧
    (envFlagSet [] (gs "b,a=1")).1 ≠ [gs "b"] := by
  refine ⟨by decide, by decide, ?_⟩
  intro h
  simp [envFlagSet, validateEnvVars, stringsSplit, gs] at h

/-- C3 (amended): when the env variant's `Set` fails validation, the
destination is left holding ALL comma-split pieces of the raw argument
(including any pieces after the first invalid one); it is not restored to its
pre-call or empty state. -/
theorem c3_failed_set_keeps_all_pieces (prev : List GoStr) (value : GoStr)
    (h : ((envFlagSet prev value).2).isSome = true) :
    (envFlagSet prev value).1 = stringsSplit ',' value ∧
    (envFlagSet prev value).1 ≠ [] := by
  refine ⟨envFlagSet_fst prev value, ?_⟩
  rw [envFlagSet_fst]
  exact stringsSplit_ne_nil ',' value

/-- C3 witness: the amended theorem applied to `Set("a=1,b")`, which fails. -/
theorem c3_witness :
    ((envFlagSet [] (gs "a=1,b")).2).isSome = true ∧
    ((envFlagSet [] (gs "a=1,b")).1 = stringsSplit ',' (gs "a=1,b") ∧
      (envFlagSet [] (gs "a=1,b")).1 ≠ []) :=
  ⟨by decide, c3_failed_set_keeps_all_pieces [] (gs "a=1,b") (by decide)⟩

/-- C4 counterexample: after the one-call sequence `Set("b")` (which fails),
the env destination holds the element `"b"`, which does not contain exactly
one `=` character — the claimed invariant is violated after failed calls. -/
theorem c4_counterexample :
    ¬ ∀ v ∈ (envFlagSet [] (gs "b")).1, v.count '=' = 1 := by
  intro h
  have hb := h (gs "b") (by decide)
  simp [gs] at hb

/-- C4 (amended): after any sequence of `Set` calls whose LAST call returned
no error, every element of the env destination contains exactly one `=`
character (each call fully replaces the destination, so the state after a
sequence is the state after its last call; a failed last call can leave
elements violating the shape). -/
theorem c4_success_invariant (prev : List GoStr) (value : GoStr)
    (h : (envFlagSet prev value).2 = none) :
    ∀ v ∈ (envFlagSet prev value).1, v.count '=' = 1 := by
  rw [envFlagSet_snd] at h
  rw [envFlagSet_fst]
  intro v hv
  have h2 := (validateEnvVars_eq_none_iff _).mp h v hv
  exact (length_stringsSplit_eq_two_iff v).mp h2

/-- C4 witness: the amended theorem applied to the succeeding call
`Set("a=1,b=2")`. -/
theorem c4_witness :
    (envFlagSet [] (gs "a=1,b=2")).2 = none ∧
    ∀ v ∈ (envFlagSet [] (gs "a=1,b=2")).1, v.count '=' = 1 :=
  ⟨by decide, c4_success_invariant [] (gs "a=1,b=2") (by decide)⟩

/-- C5: the env variant's `Set` errors iff some comma-split piece does not
split on `=` into exactly two parts; `"FOO="` is accepted while
`"FOO=BAR=BAZ"` (three parts) and `"FOO"` (no `=`) are rejected. -/
theorem c5_error_iff_bad_piece (prev : List GoStr) (value : GoStr) :
    ((envFlagSet prev value).2 ≠ none ↔
      ∃ v ∈ stringsSplit ',' value, (stringsSplit '=' v).length ≠ 2) ∧
    (envFlagSet prev (gs "FOO=")).2 = none ∧
    (envFlagSet prev (gs "FOO=BAR=BAZ")).2 ≠ none ∧
    (envFlagSet prev (gs "FOO")).2 ≠ none := by
  refine ⟨?_, ?_, ?_, ?_⟩
  · rw [envFlagSet_snd, Ne, validateEnvVars_eq_none_iff]
    push_neg
    rfl
  · rw [envFlagSet_prev]; decide
  · rw [envFlagSet_prev]; decide
  · rw [envFlagSet_prev]; decide

/-- C6: the architecture and tags variants trim surrounding whitespace from
each comma-split piece, while the env variant appends pieces verbatim;
`Set(" foo , bar ")` yields `["foo","bar"]` on tags/arch and stores
`[" foo "," bar "]` on env. -/
theorem c6_trim_asymmetry (prev : List GoStr) (value : GoStr) :
    (targetArchFlagSet prev value).1 = (stringsSplit ',' value).map trimSpace ∧
    (tagsFlagSet prev value).1 = (stringsSplit ',' value).map trimSpace ∧
    (envFlagSet prev value).1 = stringsSplit ',' value ∧
    (tagsFlagSet prev (gs " foo , bar ")).1 = [gs "foo", gs "bar"] ∧
    (targetArchFlagSet prev (gs " foo , bar ")).1 = [gs "foo", gs "bar"] ∧
    (envFlagSet prev (gs " foo , bar ")).1 = [gs " foo ", gs " bar "] := by
  refine ⟨?_, ?_, envFlagSet_fst prev value, ?_, ?_, ?_⟩
  · rw [targetArchFlagSet_eq]
  · rw [tagsFlagSet_eq]
  · rw [tagsFlagSet_prev]; decide
  · rw [targetArchFlagSet_prev]; decide
  · rw [envFlagSet_prev]; decide

/-- C7 counterexample: the error returned for a malformed env entry is NOT
the text "env var must be defined as KEY=VALUE or KEY=" — the source omits
the word "be". -/
theorem c7_counterexample :
    ((envFlagSet [] (gs "b")).2).isSome = true ∧
    (envFlagSet [] (gs "b")).2 ≠ some "env var must be defined as KEY=VALUE or KEY=" := by
  refine ⟨by decide, ?_⟩
  intro h
  simp [envFlagSet, validateEnvVars, stringsSplit, gs, envVarFormatError] at h

/-- C7 (amended): every error the env variant's `Set` returns for a
malformed element carries exactly the text
"env var must defined as KEY=VALUE or KEY=" (sic, without "be"), naming the
expected shape KEY=VALUE or KEY=. -/
theorem c7_error_text (prev : List GoStr) (value : GoStr) (e : String)
    (h : (envFlagSet prev value).2 = some e) :
    e = "env var must defined as KEY=VALUE or KEY=" := by
  rw [envFlagSet_snd] at h
  rcases validateEnvVars_result (stringsSplit ',' value) with hr | hr <;> rw [hr] at h
  · exact absurd h (by simp)
  · injection h with h2
    rw [← h2]
    rfl

/-- C7 witness: the amended theorem applied to the failing call `Set("b")`. -/
theorem c7_witness :
    (envFlagSet [] (gs "b")).2 = some envVarFormatError ∧
    envVarFormatError = "env var must defined as KEY=VALUE or KEY=" :=
  ⟨by decide, c7_error_text [] (gs "b") envVarFormatError (by decide)⟩

/-- C8: `Set("a=1,b=2")` on an env flag succeeds with no error and leaves the
destination holding exactly the ordered list `["a=1","b=2"]`. -/
theorem c8_env_happy_path (prev : List GoStr) :
    envFlagSet prev (gs "a=1,b=2") = ([gs "a=1", gs "b=2"], none) := by
  rw [envFlagSet_prev]; decide

/-- C9: `Set("")` on a tags flag yields the single empty element `[""]`, not
an empty list, and a trailing comma always produces a trailing empty
element. -/
theorem c9_empty_and_trailing_comma (prev : List GoStr) (s : GoStr) :
    tagsFlagSet prev (gs "") = ([gs ""], none) ∧
    stringsSplit ',' (gs "") = [gs ""] ∧
    (tagsFlagSet prev (s ++ [','])).1 = (tagsFlagSet prev s).1 ++ [gs ""] := by
  refine ⟨by rw [tagsFlagSet_prev]; decide, by decide, ?_⟩
  rw [tagsFlagSet_eq, tagsFlagSet_eq]
  simp [stringsSplit_append_sep, trimSpace, gs]

/-- C10: the architecture and tags variants perform no per-element
validation: for every prior state and every raw argument, `Set` returns no
error. -/
theorem c10_arch_tags_never_fail (prev : List GoStr) (value : GoStr) :
    (targetArchFlagSet prev value).2 = none ∧ (tagsFlagSet prev value).2 = none := by
  rw [targetArchFlagSet_eq, tagsFlagSet_eq]
  exact ⟨rfl, rfl⟩

end FyneCross
